import Mathlib

/-! Shallow embedding of the Portfolio Sync Engine.

Shallow embedding of the Portfolio Sync Engine of `rust-web3-risk-platform`
(`backend/api/src/services/portfolio.rs` and the repository layer it uses).

Modelling conventions:
* `f64` prices and amounts are modelled as `ℚ`; the claims under scrutiny are
  about control flow and exact products, not float rounding.
* `Result<T>` is `Except String T` (error messages kept close to the source).
* `DateTime<Utc>` / `Instant` are modelled as integer seconds (`ℤ`).
* Every external I/O outcome (RPC balances, HTTP responses, logs) is an input
  of the embedded function; repository writes are state updates on a `Store`.
* `HashMap` is modelled as an association list with first-match lookup.
-/

/-- ASCII uppercase of one character (executable stand-in for Rust
`char::to_ascii_uppercase`). -/
def upperChar (c : Char) : Char :=
  if 97 ≤ c.toNat ∧ c.toNat ≤ 122 then Char.ofNat (c.toNat - 32) else c

/-- ASCII uppercase of a string; models Rust `str::to_uppercase` (every symbol
the engine handles is ASCII). -/
def asciiUpper (s : String) : String :=
  ⟨s.data.map upperChar⟩

/-- Rust `str::eq_ignore_ascii_case` (all symbols involved are ASCII). -/
def eqIgnoreCase (a b : String) : Bool :=
  asciiUpper a = asciiUpper b

/-- First-match association-list lookup, standing in for `HashMap::get`. -/
def alistGet (m : List (String × ℚ)) (k : String) : Option ℚ :=
  (m.find? (fun e => e.1 = k)).map (·.2)

/-- Association-list member test, standing in for `HashMap::contains_key`. -/
def alistHas (m : List (String × ℚ)) (k : String) : Bool :=
  (alistGet m k).isSome

/-! Component: StaticPriceOracle -/

/-- `StaticPriceOracle::new`: seeds `ETH`, `BNB`, `USDC` defaults when the
configured table lacks them. -/
def staticOracleNew (prices : List (String × ℚ)) : List (String × ℚ) :=
  let p1 := if alistHas prices "ETH" then prices else prices ++ [("ETH", 3000)]
  let p2 := if alistHas p1 "BNB" then p1 else p1 ++ [("BNB", 600)]
  if alistHas p2 "USDC" then p2 else p2 ++ [("USDC", 1)]

/-- `StaticPriceOracle::price_usd`: configured entry when present, otherwise
`3000.0` for `ETH` (ASCII-case-insensitively) and `1.0` for everything else.
Always `Ok`. -/
def staticPriceUsd (prices : List (String × ℚ)) (assetSymbol : String)
    (_chainId : ℕ) : Except String ℚ :=
  let fallback : ℚ := if eqIgnoreCase assetSymbol "ETH" then 3000 else 1
  .ok ((alistGet prices assetSymbol).getD fallback)

/-! Component: FallbackPriceOracle -/

/-- `FallbackPriceOracle::price_usd`. `primary` and `fallback` are the wrapped
oracles' results, abstracted as functions of symbol and chain id. -/
def fallbackPriceUsd (primary fallback : String → ℕ → Except String ℚ)
    (assetSymbol : String) (chainId : ℕ) : Except String ℚ :=
  match primary assetSymbol chainId with
  | .ok price =>
    if price > 0 then .ok price
    else
      match fallback assetSymbol chainId with
      | .ok fprice =>
        if fprice > 0 then .ok fprice
        else .error ("fallback returned 0 for " ++ assetSymbol)
      | .error fallbackErr =>
        .error ("price lookup failed for " ++ assetSymbol ++
          ": fallback error: " ++ fallbackErr)
  | .error _primaryErr =>
    match fallback assetSymbol chainId with
    | .ok fprice =>
      if fprice > 0 then .ok fprice
      else .error ("fallback returned 0 for " ++ assetSymbol)
    | .error fallbackErr =>
      .error ("price lookup failed for " ++ assetSymbol ++
        ": fallback error: " ++ fallbackErr)

/-! Component: CoingeckoPriceOracle (primary provider) -/

/-- One entry of the primary provider's in-process cache.  `fresh` records
whether `fetched_at.elapsed() <= ttl` held at the moment of the call. -/
structure CgCacheEntry where
  price : ℚ
  fresh : Bool
deriving DecidableEq, Repr

/-- Decoded body of the `simple/price` response: decode failure, a body with
the `usd` price field missing, or the price. -/
inductive CgBody where
  | decodeError : CgBody
  | missingPrice : CgBody
  | price : ℚ → CgBody
deriving DecidableEq, Repr

/-- Outcome of the provider's HTTP request: the request itself failed, a
non-success status code came back, or a success status with a body. -/
inductive CgResponse where
  | reqError : CgResponse
  | failStatus : String → CgResponse
  | okStatus : CgBody → CgResponse
deriving DecidableEq, Repr

/-- `CoingeckoPriceOracle::cached_price` on the in-process cache. -/
def cgCachedPrice (cache : List (String × CgCacheEntry)) (symbol : String) :
    Option CgCacheEntry :=
  (cache.find? (fun e => e.1 = symbol)).map (·.2)

/-- `CoingeckoPriceOracle::store_price`: insert-or-replace, entry fresh. -/
def cgStorePrice (cache : List (String × CgCacheEntry)) (symbol : String)
    (price : ℚ) : List (String × CgCacheEntry) :=
  if (cgCachedPrice cache symbol).isSome then
    cache.map (fun e => if e.1 = symbol then (symbol, ⟨price, true⟩) else e)
  else
    (symbol, (⟨price, true⟩ : CgCacheEntry)) :: cache

/-- The part of `CoingeckoPriceOracle::price_usd` after the fresh-cache
short-circuit, with `stalePrice` the last in-process value (fresh or not).
Only the non-success-status branch falls back to the stale value — a request
failure, a decode failure or a missing price field error out even when a
stale value exists. -/
def cgFetch (cache : List (String × CgCacheEntry)) (resp : CgResponse)
    (symbol : String) (stalePrice : Option ℚ) :
    Except String ℚ × List (String × CgCacheEntry) :=
  match resp with
  | .reqError => (.error "coingecko request failed", cache)
  | .failStatus status =>
    match stalePrice with
    | some price => (.ok price, cache)
    | none => (.error ("coingecko returned status " ++ status), cache)
  | .okStatus .decodeError =>
    (.error "failed to decode coingecko price response", cache)
  | .okStatus .missingPrice =>
    (.error ("coingecko price missing for " ++ symbol), cache)
  | .okStatus (.price price) => (.ok price, cgStorePrice cache symbol price)

/-- `CoingeckoPriceOracle::price_usd`.  The HTTP outcome the request would
produce is the `resp` input.  Returns the result together with the updated
in-process cache: a fresh cached entry short-circuits; otherwise any cached
entry is remembered as `stale_price` and `cgFetch` runs the request. -/
def coingeckoPriceUsd (cache : List (String × CgCacheEntry))
    (resp : CgResponse) (assetSymbol : String) :
    Except String ℚ × List (String × CgCacheEntry) :=
  let symbol := asciiUpper assetSymbol
  match cgCachedPrice cache symbol with
  | some entry =>
    if entry.fresh then (.ok entry.price, cache)
    else cgFetch cache resp symbol (some entry.price)
  | none => cgFetch cache resp symbol none

/-! Component: CachedPriceOracle (persisted cache decorator) -/

/-- One row of the `price_cache` table. -/
structure PriceCacheRow where
  symbol : String
  price : ℚ
  expiresAt : ℤ
deriving DecidableEq, Repr

/-- `PostgresPriceCacheRepository::get_cached_price`: the row for `symbol`
whose `expires_at > now`. -/
def getCachedPrice (rows : List PriceCacheRow) (symbol : String) (now : ℤ) :
    Option ℚ :=
  (rows.find? (fun r => r.symbol = symbol ∧ now < r.expiresAt)).map (·.price)

/-- `PostgresPriceCacheRepository::upsert_price` (the TTL is already in
seconds; expiry is `now + ttl`).  Insert-or-replace keyed by symbol. -/
def upsertPriceRow (rows : List PriceCacheRow) (symbol : String) (price : ℚ)
    (ttl : ℕ) (now : ℤ) : List PriceCacheRow :=
  if (rows.find? (fun r => r.symbol = symbol)).isSome then
    rows.map (fun r =>
      if r.symbol = symbol then ⟨symbol, price, now + ttl⟩ else r)
  else
    rows ++ [⟨symbol, price, now + ttl⟩]

/-- `CachedPriceOracle::new` floors the TTL at 10 seconds. -/
def cachedOracleTtl (ttl : ℕ) : ℕ := max ttl 10

/-- The post-cache-miss part of `CachedPriceOracle::price_usd`: delegate to
the wrapped oracle, then upsert the fresh price. -/
def cachedFetch (rows : List PriceCacheRow) (ttl : ℕ) (now : ℤ)
    (inner : String → ℕ → Except String ℚ) (symbol : String) (chainId : ℕ) :
    Except String ℚ × Bool × List PriceCacheRow :=
  match inner symbol chainId with
  | .error e => (.error e, true, rows)
  | .ok price => (.ok price, true, upsertPriceRow rows symbol price ttl now)

/-- `CachedPriceOracle::price_usd`.  `inner` is the wrapped oracle; the
returned `Bool` records whether the wrapped oracle was invoked; the returned
row list is the persisted cache after the call (the upsert failure that the
source merely logs is modelled as a successful upsert). -/
def cachedPriceUsd (rows : List PriceCacheRow) (ttl : ℕ) (now : ℤ)
    (inner : String → ℕ → Except String ℚ) (assetSymbol : String)
    (chainId : ℕ) : Except String ℚ × Bool × List PriceCacheRow :=
  let symbol := asciiUpper assetSymbol
  match getCachedPrice rows symbol now with
  | some price =>
    if price > 0 then (.ok price, false, rows)
    else cachedFetch rows ttl now inner symbol chainId
  | none => cachedFetch rows ttl now inner symbol chainId

/-! Component: Data model (crate `domain`), specialised to the sync engine.

`Uuid` wallet ids are modelled as `ℕ`; timestamps as integer seconds. -/

structure TokenConfig where
  symbol : String
  address : String
  decimals : ℕ
  chainId : ℕ
deriving DecidableEq, Repr

structure Wallet where
  id : ℕ
  address : String
  chainId : ℕ
deriving DecidableEq, Repr

structure Position where
  assetSymbol : String
  amount : ℚ
  usdValue : ℚ
deriving DecidableEq, Repr

structure PortfolioSnapshot where
  walletId : ℕ
  positions : List Position
  totalUsdValue : ℚ
  timestamp : ℤ
deriving DecidableEq, Repr

structure WalletTransaction where
  walletId : ℕ
  chainId : ℕ
  txHash : String
  blockNumber : ℤ
  logIndex : ℤ
  assetSymbol : String
  amount : ℚ
  usdValue : ℚ
  direction : String
  fromAddress : String
  toAddress : String
  blockTimestamp : ℤ
deriving DecidableEq, Repr

/-- An ERC-20 `Transfer` event log as returned by `eth_getLogs`: the emitting
contract, the sender and recipient topics (already as 20-byte addresses — the
source slices bytes 12..32 of the 32-byte topic), the big-endian amount word,
and the optional block metadata. -/
structure TransferLog where
  address : String
  topicFrom : Option String
  topicTo : Option String
  dataRaw : ℕ
  blockNumber : Option ℕ
  txHash : Option String
  logIndex : Option ℕ
deriving DecidableEq, Repr

/-- The persisted state the syncer reads and writes: snapshot table (newest
first, `insert_snapshot` prepends), daily snapshots keyed by `(wallet, day)`,
the per-wallet sync cursors (`last_daily_snapshot`, `last_tx_block`) and the
`wallet_transactions` table. -/
structure Store where
  snapshots : List PortfolioSnapshot
  daily : List (ℕ × ℤ × ℚ)
  dayCursors : List (ℕ × ℤ)
  txCursors : List (ℕ × ℤ)
  txs : List WalletTransaction
deriving DecidableEq, Repr

def emptyStore : Store := ⟨[], [], [], [], []⟩

/-- `PortfolioSnapshotRepository::latest_by_wallet` (snapshots newest first). -/
def latestByWallet (store : Store) (walletId : ℕ) : Option PortfolioSnapshot :=
  store.snapshots.find? (fun s => s.walletId = walletId)

/-- `PortfolioSnapshotRepository::insert_snapshot`. -/
def insertSnapshot (store : Store) (snap : PortfolioSnapshot) : Store :=
  { store with snapshots := snap :: store.snapshots }

/-- `PortfolioSnapshotRepository::upsert_daily_snapshot`, keyed by
`(wallet_id, day)`, last writer wins. -/
def upsertDaily (store : Store) (walletId : ℕ) (day : ℤ) (total : ℚ) : Store :=
  if (store.daily.find? (fun d => d.1 = walletId ∧ d.2.1 = day)).isSome then
    { store with
      daily := store.daily.map (fun d =>
        if d.1 = walletId ∧ d.2.1 = day then (walletId, day, total) else d) }
  else
    { store with daily := store.daily ++ [(walletId, day, total)] }

/-- `TransactionRepository::update_last_daily_snapshot` (cursor upsert). -/
def updateDayCursor (store : Store) (walletId : ℕ) (day : ℤ) : Store :=
  if (store.dayCursors.find? (fun c => c.1 = walletId)).isSome then
    { store with
      dayCursors := store.dayCursors.map (fun c =>
        if c.1 = walletId then (walletId, day) else c) }
  else
    { store with dayCursors := store.dayCursors ++ [(walletId, day)] }

/-- `TransactionRepository::last_tx_block`: `None` when no cursor row exists. -/
def lastTxBlock (store : Store) (walletId : ℕ) : Option ℤ :=
  (store.txCursors.find? (fun c => c.1 = walletId)).map (·.2)

/-- `TransactionRepository::update_last_tx_block`: plain upsert — the new
value overwrites the old unconditionally (`SET last_tx_block =
EXCLUDED.last_tx_block`, no `GREATEST`). -/
def updateTxCursor (store : Store) (walletId : ℕ) (block : ℤ) : Store :=
  if (store.txCursors.find? (fun c => c.1 = walletId)).isSome then
    { store with
      txCursors := store.txCursors.map (fun c =>
        if c.1 = walletId then (walletId, block) else c) }
  else
    { store with txCursors := store.txCursors ++ [(walletId, block)] }

/-- The idempotency key of `wallet_transactions`:
`(wallet_id, tx_hash, log_index)`. -/
def txKeyExists (txs : List WalletTransaction) (t : WalletTransaction) : Bool :=
  txs.any (fun u =>
    u.walletId = t.walletId ∧ u.txHash = t.txHash ∧ u.logIndex = t.logIndex)

/-- `TransactionRepository::insert_transactions`:
`ON CONFLICT (wallet_id, tx_hash, log_index) DO NOTHING`. -/
def insertTransactions (store : Store) (newTxs : List WalletTransaction) :
    Store :=
  { store with
    txs := newTxs.foldl
      (fun acc t => if txKeyExists acc t then acc else acc ++ [t]) store.txs }

/-! Component: Chain environment

Every chain-RPC outcome consumed by one sync invocation, supplied as data:
the latest block number, the raw native balance (wei), the raw ERC-20
balances keyed by token contract address (`.error` = the `eth_call` failed),
the two transfer-log query results (wallet as sender / as recipient) for the
scanned range, per-block timestamps, and the synthetic positions injected in
simulation mode. -/
structure ChainEnv where
  latestBlock : ℕ
  nativeBalanceRaw : ℕ
  erc20BalanceRaw : String → Except Unit ℕ
  fromLogs : List TransferLog
  toLogs : List TransferLog
  blockTs : ℕ → ℤ
  simPositions : List Position

/-- Configuration slice of `DbPortfolioService` used by one sync. The layered
oracle is abstracted as its `price_usd` function. -/
structure SyncConfig where
  tokens : List TokenConfig
  oracle : String → ℕ → Except String ℚ
  snapshotMinInterval : ℤ
  simulation : Bool

/-! Component: Transaction log indexer (`sync_transactions`) -/

/-- ASCII lowercase of one character. -/
def lowerChar (c : Char) : Char :=
  if 65 ≤ c.toNat ∧ c.toNat ≤ 90 then Char.ofNat (c.toNat + 32) else c

/-- ASCII lowercase of a string (Rust `str::to_lowercase` on hex/ASCII). -/
def asciiLower (s : String) : String :=
  ⟨s.data.map lowerChar⟩

/-- `topic_to_address`: the topic's embedded address, lowercased; empty string
when the topic is absent. -/
def topicToAddress (topic : Option String) : String :=
  asciiLower (topic.getD "")

/-- The `start_block` computation at the head of `sync_transactions`:
`last_block` is the persisted cursor, defaulted to `latest_block` itself when
no cursor row exists; the 500-block backfill fires only when that value is
non-positive. -/
def startBlockOf (cursor : Option ℤ) (latestBlock : ℕ) : ℕ :=
  let lastBlock : ℤ := cursor.getD (latestBlock : ℤ)
  if lastBlock ≤ 0 then latestBlock - 500 else lastBlock.toNat + 1

/-- The per-log body of the indexing loop: token lookup by contract address
(unknown contract → skip), amount decoding by the token's decimals, direction
from a case-insensitive compare of the recipient with the wallet address,
valuation at sync time with price-lookup failures degraded to `0`. -/
def logToTx (cfg : SyncConfig) (wallet : Wallet) (env : ChainEnv)
    (tokenMap : List TokenConfig) (log : TransferLog) :
    Option WalletTransaction :=
  match tokenMap.find? (fun t => t.address = log.address) with
  | none => none
  | some token =>
    let fromAddr := topicToAddress log.topicFrom
    let toAddr := topicToAddress log.topicTo
    let direction := if eqIgnoreCase toAddr wallet.address then "in" else "out"
    let amount : ℚ := (log.dataRaw : ℚ) / 10 ^ token.decimals
    let price : ℚ :=
      match cfg.oracle token.symbol wallet.chainId with
      | .ok p => p
      | .error _ => 0
    let blockNumber := log.blockNumber.getD env.latestBlock
    let blockTsVal := env.blockTs blockNumber
    some
      { walletId := wallet.id
        chainId := wallet.chainId
        txHash := log.txHash.getD ""
        blockNumber := (blockNumber : ℤ)
        logIndex := ((log.logIndex.getD 0 : ℕ) : ℤ)
        assetSymbol := token.symbol
        amount := amount
        usdValue := amount * price
        direction := direction
        fromAddress := fromAddr
        toAddress := toAddr
        blockTimestamp := blockTsVal }

/-- `DbPortfolioService::sync_transactions`.  The log-query results are part
of `env` (they stand for the node's answer for the scanned range); repository
writes succeed, so the function is total and every path — early return on
`start_block > latest_block`, no configured tokens, no logs, or the full
batch insert — ends by setting the cursor to `latest_block`. -/
def syncTransactions (cfg : SyncConfig) (wallet : Wallet) (env : ChainEnv)
    (store : Store) : Store :=
  let startBlock := startBlockOf (lastTxBlock store wallet.id) env.latestBlock
  if startBlock > env.latestBlock then
    updateTxCursor store wallet.id (env.latestBlock : ℤ)
  else
    let tokenMap := cfg.tokens.filter (fun t => t.chainId = wallet.chainId)
    if tokenMap.isEmpty then
      updateTxCursor store wallet.id (env.latestBlock : ℤ)
    else
      let allLogs := env.fromLogs ++ env.toLogs
      if allLogs.isEmpty then
        updateTxCursor store wallet.id (env.latestBlock : ℤ)
      else
        let newTxs := allLogs.filterMap (logToTx cfg wallet env tokenMap)
        updateTxCursor (insertTransactions store newTxs) wallet.id
          (env.latestBlock : ℤ)

/-! Component: Wallet state syncer (`sync_wallet`) -/

/-- The freshness guard at the head of `sync_wallet`: skip when the latest
snapshot is younger than `snapshot_min_interval`. -/
def freshSkip (cfg : SyncConfig) (wallet : Wallet) (now : ℤ) (store : Store) :
    Bool :=
  match latestByWallet store wallet.id with
  | some latest => now - latest.timestamp < cfg.snapshotMinInterval
  | none => false

/-- The per-token body of step 3 of `sync_wallet`.  A failed balance call
skips the token (`none`); a zero amount skips the token; on BSC a token named
`ETH` is relabelled for display; the price lookup keys on the raw token
symbol and a lookup failure degrades to price `0` (the position is kept). -/
def tokenPosition (cfg : SyncConfig) (wallet : Wallet) (env : ChainEnv)
    (token : TokenConfig) : Option Position :=
  match env.erc20BalanceRaw token.address with
  | .error _ => none
  | .ok raw =>
    let amount : ℚ := (raw : ℚ) / 10 ^ token.decimals
    if amount = 0 then none
    else
      let displaySymbol :=
        if wallet.chainId = 56 ∧ token.symbol = "ETH" then "WETH (BSC)"
        else token.symbol
      let price : ℚ :=
        match cfg.oracle token.symbol wallet.chainId with
        | .ok p => p
        | .error _ => 0
      some ⟨displaySymbol, amount, amount * price⟩

/-- Step 3 of `sync_wallet`: the ERC-20 positions of every token configured
for the wallet's chain. -/
def tokenPositions (cfg : SyncConfig) (wallet : Wallet) (env : ChainEnv) :
    List Position :=
  (cfg.tokens.filter (fun t => t.chainId = wallet.chainId)).filterMap
    (tokenPosition cfg wallet env)

/-- `date_naive()` modelled as the integer day index of the timestamp. -/
def dayOf (t : ℤ) : ℤ := t / 86400

/-- `DbPortfolioService::sync_wallet`.  After the freshness guard it fetches
the native balance, prices it via the oracle — always under the symbol
`"ETH"`, whatever the chain (the chain-dependent `native_symbol` is used only
as the position label) — a native-price failure propagates; then the token
positions, the optional simulated positions, the snapshot insert, the daily
snapshot and day-cursor upserts, and finally transaction indexing whose
failure is swallowed. -/
def syncWallet (cfg : SyncConfig) (wallet : Wallet) (env : ChainEnv) (now : ℤ)
    (store : Store) : Except String Store :=
  if freshSkip cfg wallet now store then .ok store
  else
    let ethAmount : ℚ := (env.nativeBalanceRaw : ℚ) / 10 ^ 18
    match cfg.oracle "ETH" wallet.chainId with
    | .error e => .error e
    | .ok price =>
      let usdValue := ethAmount * price
      let timestamp := now
      let nativeSymbol := if wallet.chainId = 56 then "BNB" else "ETH"
      let nativePositions : List Position :=
        if ethAmount > 0 then [⟨nativeSymbol, ethAmount, usdValue⟩] else []
      let simPositions := if cfg.simulation then env.simPositions else []
      let positions := nativePositions ++ tokenPositions cfg wallet env ++
        simPositions
      let total := (positions.map (·.usdValue)).sum
      let snap : PortfolioSnapshot := ⟨wallet.id, positions, total, timestamp⟩
      let st1 := insertSnapshot store snap
      let day := dayOf timestamp
      let st2 := upsertDaily st1 wallet.id day total
      let st3 := updateDayCursor st2 wallet.id day
      .ok (syncTransactions cfg wallet env st3)

/-! Component: Sync orchestrator (`sync_wallet_with_retry`, `sync_all_wallets`)

Per-attempt sync outcomes are abstracted as `results : ℕ → Except String
Unit` (the outcome of attempt number `n`, 1-based), since each attempt runs
the whole of `sync_wallet` against a changing outside world. -/

/-- The loop body of `sync_wallet_with_retry`: `attemptsMade` attempts have
already failed; the fuel is the remaining loop iterations (the guard
`attempt < max_retries` bounds them, so `max maxRetries 1` suffices).
Returns the final result, the number of attempts made, and the list of
back-off sleep durations, in order. -/
def retryGo (maxRetries backoff : ℕ) (results : ℕ → Except String Unit) :
    ℕ → ℕ → Except String Unit × ℕ × List ℕ
  | 0, attemptsMade => (.error "retry fuel exhausted", attemptsMade, [])
  | fuel + 1, attemptsMade =>
    let attempt := attemptsMade + 1
    match results attempt with
    | .ok _ => (.ok (), attempt, [])
    | .error e =>
      if attempt < maxRetries then
        let rest := retryGo maxRetries backoff results fuel attempt
        (rest.1, rest.2.1, backoff * attempt :: rest.2.2)
      else
        (.error e, attempt, [])

/-- `DbPortfolioService::sync_wallet_with_retry`: up to `max_retries`
attempts, sleeping `retry_backoff * attempt_number` after each non-final
failure.  (The constructor clamps `max_retries` to at least 1; the loop also
always makes its first attempt, which `max maxRetries 1` reproduces.) -/
def syncWalletWithRetry (maxRetries backoff : ℕ)
    (results : ℕ → Except String Unit) : Except String Unit × ℕ × List ℕ :=
  retryGo maxRetries backoff results (max maxRetries 1) 0

/-- The status string written by `log_indexer_run` for one wallet task. -/
def runStatus (r : Except String Unit) : String :=
  match r with
  | .ok _ => "ok"
  | .error _ => "error"

/-- `DbPortfolioService::sync_all_wallets`, flattened to its observable audit
trail: every wallet is retried independently and gets exactly one indexer-run
record, `ok` or `error`; one wallet's exhausted retries never abort the
sweep.  (The semaphore only bounds parallelism; joining the task handles in
order makes the sequential model faithful to the recorded outcomes.) -/
def syncAllWallets (maxRetries backoff : ℕ) (wallets : List Wallet)
    (attemptOutcome : Wallet → ℕ → Except String Unit) : List (ℕ × String) :=
  wallets.map (fun w =>
    (w.id, runStatus (syncWalletWithRetry maxRetries backoff
      (attemptOutcome w)).1))

/-- The number of persisted snapshots a wallet has in the store. -/
def countSnapshots (store : Store) (walletId : ℕ) : ℕ :=
  (store.snapshots.filter (fun s => s.walletId = walletId)).length

/-- The oracle built by `bootstrap` from an empty configured table: the
static provider with its seeded defaults (ETH 3000, BNB 600, USDC 1). -/
def oracleDefault : String → ℕ → Except String ℚ :=
  staticPriceUsd (staticOracleNew [])

/-- Fixture: one USDC token configured on chain 1. -/
def cfgC2 : SyncConfig :=
  ⟨[⟨"USDC", "0xusdc", 6, 1⟩], oracleDefault, 60, false⟩

/-- Fixture: a wallet on chain 1. -/
def wC2 : Wallet := ⟨9, "0xwallet", 1⟩

/-- Fixture: chain state at block 1000 with one incoming USDC transfer log in
the last 500 blocks (block 950), available to a backfilling scan. -/
def envC2 : ChainEnv :=
  ⟨1000, 0, fun _ => .error (), [],
    [⟨"0xusdc", some "0xother", some "0xwallet", 1000000, some 950,
      some "0xhash1", some 0⟩], fun _ => 0, []⟩

/-- Fixture: a store whose cursor for wallet 9 stands at block 100. -/
def storeC7 : Store := { emptyStore with txCursors := [(9, 100)] }

/-- Fixture: an invocation observing a chain tip (block 90) behind the
persisted cursor — e.g. a lagging RPC node. -/
def envC7 : ChainEnv := ⟨90, 0, fun _ => .error (), [], [], fun _ => 0, []⟩

/-- Fixture: a wallet on BNB Smart Chain (chain id 56). -/
def walletC1 : Wallet := ⟨1, "0xabc", 56⟩

/-- Fixture: chain state with a native balance of 2 units (2×10^18 wei) and
no token balances. -/
def envC1 : ChainEnv :=
  ⟨100, 2 * 10 ^ 18, fun _ => .error (), [], [], fun _ => 0, []⟩

/-- Fixture: no tokens configured, default static oracle. -/
def cfgC1 : SyncConfig := ⟨[], oracleDefault, 60, false⟩

/-- Fixture: an oracle that prices `ETH` but fails on every other symbol. -/
def oracleC3 : String → ℕ → Except String ℚ := fun sym _ =>
  if sym = "ETH" then .ok 3000 else .error "no price"

/-- Fixture: one FOO token (0 decimals) configured on chain 1, priced by
`oracleC3` (which fails on FOO). -/
def cfgC3 : SyncConfig := ⟨[⟨"FOO", "0xfoo", 0, 1⟩], oracleC3, 60, false⟩

/-- Fixture: a wallet on chain 1. -/
def walletC3 : Wallet := ⟨2, "0xw", 1⟩

/-- Fixture: zero native balance; the FOO balance query succeeds with raw
balance 5. -/
def envC3 : ChainEnv :=
  ⟨100, 0, fun a => if a = "0xfoo" then .ok 5 else .error (), [], [],
    fun _ => 0, []⟩

/-! Claims C1 to C10. -/

/-- Claim C10, counterexample: The claim asserts `price_usd` always returns a
*positive* price; but the configured table is seeded as given, so a table
configuring a symbol at `0.0` is served back verbatim: `price_usd("FOO")`
on the table built from `[("FOO", 0)]` is `Ok 0.0`, which is not positive. -/
theorem staticPriceUsd_zero_entry_counterexample :
    staticPriceUsd (staticOracleNew [("FOO", 0)]) "FOO" 1 = .ok 0 ∧
      ¬ (0 : ℚ) > 0 := by
  exact ⟨rfl, by norm_num⟩

/-- Claim C10, amended: `StaticPriceOracle::price_usd` is total and never
returns an error: it returns `Ok` with the configured table entry if present,
otherwise `3000.0` when the symbol equals `"ETH"` case-insensitively and
`1.0` for any other symbol (so an unknown token reaching the static fallback
is silently valued at `1.0`).  The price is positive provided every
configured entry is positive (in particular the seeded defaults are); a
configured non-positive entry is returned as-is. -/
theorem staticPriceUsd_total (prices : List (String × ℚ)) (sym : String)
    (chain : ℕ) :
    staticPriceUsd prices sym chain =
      .ok ((alistGet prices sym).getD
        (if eqIgnoreCase sym "ETH" then 3000 else 1)) ∧
    ((∀ e ∈ prices, 0 < e.2) →
      ∃ p, staticPriceUsd prices sym chain = .ok p ∧ 0 < p) := by
  constructor
  · rfl
  · intro hpos
    refine ⟨(alistGet prices sym).getD
      (if eqIgnoreCase sym "ETH" then 3000 else 1), rfl, ?_⟩
    rcases hget : alistGet prices sym with _ | p
    · simp only [hget, Option.getD_none]
      split <;> norm_num
    · simp only [hget, Option.getD_some]
      unfold alistGet at hget
      rcases hfind : prices.find? (fun e => e.1 = sym) with _ | e
      · rw [hfind] at hget
        simp at hget
      · rw [hfind] at hget
        simp at hget
        have hmem := List.mem_of_find?_eq_some hfind
        have hpos2 := hpos e hmem
        rw [hget] at hpos2
        exact hpos2

/-- Claim C10, witness: -/
theorem staticPriceUsd_total_witness :
    staticPriceUsd [("FOO", 2)] "FOO" 1 =
      .ok ((alistGet [("FOO", 2)] "FOO").getD
        (if eqIgnoreCase "FOO" "ETH" then 3000 else 1)) ∧
    (∃ p, staticPriceUsd [("FOO", 2)] "FOO" 1 = .ok p ∧ 0 < p) :=
  ⟨(staticPriceUsd_total [("FOO", 2)] "FOO" 1).1,
    (staticPriceUsd_total [("FOO", 2)] "FOO" 1).2 (by decide)⟩

/-- Claim C4, confirmed: The Fallback layer returns the primary's price when the
primary succeeds with a positive price; when the primary errors or returns a
non-positive price it queries the fallback provider and returns its price if
positive; when the fallback's price is also non-positive or the fallback
errors, it returns an error; and a non-positive price is never returned as a
valid result. -/
theorem fallbackPriceUsd_spec
    (primary fallback : String → ℕ → Except String ℚ) (sym : String)
    (chain : ℕ) :
    (∀ p, primary sym chain = .ok p → 0 < p →
      fallbackPriceUsd primary fallback sym chain = .ok p) ∧
    (((∃ p, primary sym chain = .ok p ∧ p ≤ 0) ∨
        (∃ e, primary sym chain = .error e)) →
      (∀ q, fallback sym chain = .ok q → 0 < q →
        fallbackPriceUsd primary fallback sym chain = .ok q) ∧
      (∀ q, fallback sym chain = .ok q → q ≤ 0 →
        ∃ e, fallbackPriceUsd primary fallback sym chain = .error e) ∧
      (∀ e, fallback sym chain = .error e →
        ∃ e2, fallbackPriceUsd primary fallback sym chain = .error e2)) ∧
    (∀ r, fallbackPriceUsd primary fallback sym chain = .ok r → 0 < r) := by
  refine ⟨?_, ?_, ?_⟩
  · intro p hp hpos
    simp only [fallbackPriceUsd, hp]
    rw [if_pos hpos]
  · intro hprim
    refine ⟨?_, ?_, ?_⟩
    · intro q hq hqpos
      rcases hprim with ⟨p, hp, hple⟩ | ⟨e, he⟩
      · simp only [fallbackPriceUsd, hp]
        rw [if_neg (not_lt.mpr hple)]
        simp only [hq]
        rw [if_pos hqpos]
      · simp only [fallbackPriceUsd, he, hq]
        rw [if_pos hqpos]
    · intro q hq hqle
      rcases hprim with ⟨p, hp, hple⟩ | ⟨e, he⟩
      · refine ⟨"fallback returned 0 for " ++ sym, ?_⟩
        simp only [fallbackPriceUsd, hp]
        rw [if_neg (not_lt.mpr hple)]
        simp only [hq]
        rw [if_neg (not_lt.mpr hqle)]
      · refine ⟨"fallback returned 0 for " ++ sym, ?_⟩
        simp only [fallbackPriceUsd, he, hq]
        rw [if_neg (not_lt.mpr hqle)]
    · intro e he
      rcases hprim with ⟨p, hp, hple⟩ | ⟨e0, he0⟩
      · refine ⟨"price lookup failed for " ++ sym ++ ": fallback error: " ++ e,
          ?_⟩
        simp only [fallbackPriceUsd, hp]
        rw [if_neg (not_lt.mpr hple)]
        simp only [he]
      · refine ⟨"price lookup failed for " ++ sym ++ ": fallback error: " ++ e,
          ?_⟩
        simp only [fallbackPriceUsd, he0, he]
  · intro r hr
    rcases hp : primary sym chain with e | p
    all_goals rcases hf : fallback sym chain with e2 | q
    · simp only [fallbackPriceUsd, hp, hf] at hr
      cases hr
    · simp only [fallbackPriceUsd, hp, hf] at hr
      by_cases hqpos : q > 0
      · rw [if_pos hqpos] at hr
        cases hr
        exact hqpos
      · rw [if_neg hqpos] at hr
        cases hr
    · simp only [fallbackPriceUsd, hp, hf] at hr
      by_cases hppos : p > 0
      · rw [if_pos hppos] at hr
        cases hr
        exact hppos
      · rw [if_neg hppos] at hr
        cases hr
    · simp only [fallbackPriceUsd, hp, hf] at hr
      by_cases hppos : p > 0
      · rw [if_pos hppos] at hr
        cases hr
        exact hppos
      · rw [if_neg hppos] at hr
        by_cases hqpos : q > 0
        · rw [if_pos hqpos] at hr
          cases hr
          exact hqpos
        · rw [if_neg hqpos] at hr
          cases hr

/-- Claim C4, witness: A primary that errors and the seeded static fallback:
the Fallback layer serves the static `ETH` price. -/
theorem fallbackPriceUsd_spec_witness :
    fallbackPriceUsd (fun _ _ => .error "down") oracleDefault "ETH" 1 =
      .ok 3000 :=
  ((fallbackPriceUsd_spec (fun _ _ => .error "down") oracleDefault "ETH"
    1).2.1 (Or.inr ⟨"down", rfl⟩)).1 3000 rfl (by norm_num)

/-- Claim C5, counterexample: A stale in-process value (5, not fresh) exists
for `ETH`, and the response has a success status but no price field; the
claim says the last good value 5 is returned, but the source errors in this
case — only the non-success-status branch consults the stale value. -/
theorem coingeckoPriceUsd_missing_field_counterexample :
    (coingeckoPriceUsd [("ETH", ⟨5, false⟩)] (.okStatus .missingPrice)
      "ETH").1 = .error "coingecko price missing for ETH" := rfl

/-- Claim C5, amended: On a *non-success HTTP status*, `price_usd` returns the
last good in-process value if one exists and fails only when none exists; but
a request failure, an undecodable body, or a success response *missing the
price field* fail immediately even when an in-process value exists. -/
theorem coingeckoPriceUsd_stale_fallback
    (cache : List (String × CgCacheEntry)) (status : String) (sym : String) :
    (∀ entry, cgCachedPrice cache (asciiUpper sym) = some entry →
      entry.fresh = false →
      (coingeckoPriceUsd cache (.failStatus status) sym).1 =
        .ok entry.price) ∧
    (cgCachedPrice cache (asciiUpper sym) = none →
      (coingeckoPriceUsd cache (.failStatus status) sym).1 =
        .error ("coingecko returned status " ++ status)) ∧
    (∀ entry, cgCachedPrice cache (asciiUpper sym) = some entry →
      entry.fresh = false →
      (coingeckoPriceUsd cache (.okStatus .missingPrice) sym).1 =
        .error ("coingecko price missing for " ++ asciiUpper sym)) ∧
    (∀ entry, cgCachedPrice cache (asciiUpper sym) = some entry →
      entry.fresh = false →
      (coingeckoPriceUsd cache .reqError sym).1 =
        .error "coingecko request failed") ∧
    (∀ entry, cgCachedPrice cache (asciiUpper sym) = some entry →
      entry.fresh = false →
      (coingeckoPriceUsd cache (.okStatus .decodeError) sym).1 =
        .error "failed to decode coingecko price response") := by
  refine ⟨?_, ?_, ?_, ?_, ?_⟩
  · intro entry hentry hstale
    simp only [coingeckoPriceUsd, hentry, hstale]
    rfl
  · intro hnone
    simp only [coingeckoPriceUsd, hnone]
    rfl
  · intro entry hentry hstale
    simp only [coingeckoPriceUsd, hentry, hstale]
    rfl
  · intro entry hentry hstale
    simp only [coingeckoPriceUsd, hentry, hstale]
    rfl
  · intro entry hentry hstale
    simp only [coingeckoPriceUsd, hentry, hstale]
    rfl

/-- Claim C5, witness: -/
theorem coingeckoPriceUsd_stale_fallback_witness :
    (coingeckoPriceUsd [("ETH", ⟨5, false⟩)] (.failStatus "429") "ETH").1 =
      .ok (5 : ℚ) :=
  (coingeckoPriceUsd_stale_fallback [("ETH", ⟨5, false⟩)] "429" "ETH").1
    ⟨5, false⟩ rfl rfl

/-- Claim C6, confirmed: With a non-expired persisted cache entry of positive
price for the (uppercased) symbol, the Cache decorator returns that price,
never invokes the wrapped oracle (the `Bool` component is `false`), and
leaves the cache untouched; on a miss — no entry with a future expiry — or a
non-positive cached value it invokes the wrapped oracle and, on success,
upserts the fresh price with the configured TTL (errors of the wrapped oracle
propagate without an upsert). -/
theorem cachedPriceUsd_spec (rows : List PriceCacheRow) (ttl : ℕ) (now : ℤ)
    (inner : String → ℕ → Except String ℚ) (sym : String) (chain : ℕ) :
    (∀ p, getCachedPrice rows (asciiUpper sym) now = some p → 0 < p →
      cachedPriceUsd rows ttl now inner sym chain = (.ok p, false, rows)) ∧
    ((getCachedPrice rows (asciiUpper sym) now = none ∨
        (∃ p, getCachedPrice rows (asciiUpper sym) now = some p ∧ p ≤ 0)) →
      (∀ q, inner (asciiUpper sym) chain = .ok q →
        cachedPriceUsd rows ttl now inner sym chain =
          (.ok q, true, upsertPriceRow rows (asciiUpper sym) q ttl now)) ∧
      (∀ e, inner (asciiUpper sym) chain = .error e →
        cachedPriceUsd rows ttl now inner sym chain =
          (.error e, true, rows))) := by
  constructor
  · intro p hget hpos
    simp only [cachedPriceUsd, hget]
    rw [if_pos hpos]
  · intro hmiss
    constructor
    · intro q hq
      rcases hmiss with hnone | ⟨p, hget, hle⟩
      · simp only [cachedPriceUsd, hnone, cachedFetch, hq]
      · simp only [cachedPriceUsd, hget]
        rw [if_neg (not_lt.mpr hle)]
        simp only [cachedFetch, hq]
    · intro e he
      rcases hmiss with hnone | ⟨p, hget, hle⟩
      · simp only [cachedPriceUsd, hnone, cachedFetch, he]
      · simp only [cachedPriceUsd, hget]
        rw [if_neg (not_lt.mpr hle)]
        simp only [cachedFetch, he]

/-- Claim C6, witness: The spec's cache short-circuit vector: a pre-populated
non-expired entry of 100 for `USDC` is served without touching the wrapped
oracle. -/
theorem cachedPriceUsd_spec_witness :
    cachedPriceUsd [⟨"USDC", 100, 50⟩] 60 0
      (fun _ _ => .error "wrapped oracle must not be called") "USDC" 1 =
      (.ok 100, false, [⟨"USDC", 100, 50⟩]) :=
  (cachedPriceUsd_spec [⟨"USDC", 100, 50⟩] 60 0
    (fun _ _ => .error "wrapped oracle must not be called") "USDC" 1).1
    100 rfl (by norm_num)

/-- Replacing the keyed entry of an association list preserves first-match
lookup: the update is found. -/
theorem find?_map_update (l : List (ℕ × ℤ)) (w : ℕ) (b : ℤ)
    (h : (l.find? (fun c => c.1 = w)).isSome = true) :
    (l.map (fun c => if c.1 = w then (w, b) else c)).find?
      (fun c => c.1 = w) = some (w, b) := by
  revert h
  induction l with
  | nil =>
    intro h
    simp at h
  | cons hd tl ih =>
    intro h
    by_cases hhd : hd.1 = w
    · rw [List.map_cons, if_pos hhd]
      exact List.find?_cons_of_pos _ (by simp)
    · rw [List.map_cons, if_neg hhd]
      rw [List.find?_cons_of_neg _ (by simp [hhd])]
      apply ih
      rw [List.find?_cons_of_neg _ (by simp [hhd])] at h
      exact h

/-- `update_last_tx_block` followed by `last_tx_block` reads back the written
value (the upsert either rewrites the keyed row or appends a fresh one). -/
theorem lastTxBlock_updateTxCursor (store : Store) (w : ℕ) (b : ℤ) :
    lastTxBlock (updateTxCursor store w b) w = some b := by
  by_cases h : (store.txCursors.find? (fun c => c.1 = w)).isSome
  · simp only [lastTxBlock, updateTxCursor, if_pos h,
      find?_map_update store.txCursors w b h]
    rfl
  · have hfind : (store.txCursors ++ [(w, b)]).find? (fun c => c.1 = w)
        = some (w, b) := by
      rw [List.find?_append, Option.not_isSome_iff_eq_none.mp h,
        Option.none_or]
      exact List.find?_cons_of_pos _ (by simp)
    simp only [lastTxBlock, updateTxCursor, if_neg h, hfind]
    rfl




/-- Claim C2, counterexample: With no persisted cursor and `latest_block =
1000`, the scan's start block is `1001` — not `1000 - 500 = 500` as the claim
says — so the first run indexes nothing: even with a transfer log sitting in
the last 500 blocks, `sync_transactions` only writes the cursor and inserts
no transaction. -/
theorem startBlockOf_no_cursor_counterexample :
    startBlockOf none 1000 = 1001 ∧ (1001 : ℕ) ≠ 1000 - 500 ∧
    syncTransactions cfgC2 wC2 envC2 emptyStore =
      { emptyStore with txCursors := [(9, 1000)] } :=
  ⟨rfl, by decide, rfl⟩

/-- Claim C2, amended: When no persisted cursor exists, `last_block` defaults
to `latest_block` itself, so for `latest_block > 0` the start block is
`latest_block + 1` and the first run indexes nothing — it merely advances the
cursor to `latest_block`.  The 500-block backfill window applies exactly when
the persisted cursor exists with `last_tx_block ≤ 0` (or when `latest_block =
0`); with a persisted cursor `last_tx_block > 0`, the start block is
`last_tx_block + 1`. -/
theorem startBlockOf_cases (latest : ℕ) :
    (0 < latest → startBlockOf none latest = latest + 1) ∧
    startBlockOf none 0 = 0 ∧
    (∀ b : ℤ, 0 < b → startBlockOf (some b) latest = b.toNat + 1) ∧
    (∀ b : ℤ, b ≤ 0 → startBlockOf (some b) latest = latest - 500) ∧
    (∀ cfg wallet env store, lastTxBlock store wallet.id = none →
      0 < env.latestBlock →
      syncTransactions cfg wallet env store =
        updateTxCursor store wallet.id (env.latestBlock : ℤ)) := by
  refine ⟨?_, ?_, ?_, ?_, ?_⟩
  · intro h
    simp only [startBlockOf, Option.getD_none]
    split <;> omega
  · rfl
  · intro b hb
    simp only [startBlockOf, Option.getD_some]
    split <;> omega
  · intro b hb
    simp only [startBlockOf, Option.getD_some]
    split <;> omega
  · intro cfg wallet env store hnone hpos
    have h1 : env.latestBlock < startBlockOf (lastTxBlock store wallet.id)
        env.latestBlock := by
      rw [hnone]
      simp only [startBlockOf, Option.getD_none]
      split <;> omega
    simp only [syncTransactions]
    rw [if_pos h1]

/-- The daily-snapshot upsert does not touch the snapshot table. -/
theorem snapshots_upsertDaily (st : Store) (w : ℕ) (d : ℤ) (t : ℚ) :
    (upsertDaily st w d t).snapshots = st.snapshots := by
  unfold upsertDaily
  split <;> rfl

/-- The day-cursor upsert does not touch the snapshot table. -/
theorem snapshots_updateDayCursor (st : Store) (w : ℕ) (d : ℤ) :
    (updateDayCursor st w d).snapshots = st.snapshots := by
  unfold updateDayCursor
  split <;> rfl

/-- The tx-cursor upsert does not touch the snapshot table. -/
theorem snapshots_updateTxCursor (st : Store) (w : ℕ) (b : ℤ) :
    (updateTxCursor st w b).snapshots = st.snapshots := by
  unfold updateTxCursor
  split <;> rfl

/-- Transaction indexing touches only the cursor and transaction tables,
never the snapshot table. -/
theorem snapshots_syncTransactions (cfg : SyncConfig) (wallet : Wallet)
    (env : ChainEnv) (st : Store) :
    (syncTransactions cfg wallet env st).snapshots = st.snapshots := by
  simp only [syncTransactions]
  split
  · exact snapshots_updateTxCursor st wallet.id _
  · split
    · exact snapshots_updateTxCursor st wallet.id _
    · split
      · exact snapshots_updateTxCursor st wallet.id _
      · rw [snapshots_updateTxCursor]
        rfl

/-- When every attempt fails, the retry loop runs its full budget: starting
with `attemptsMade` failed attempts and `fuel` remaining iterations summing
to `maxRetries`, it makes exactly `maxRetries` attempts in total, sleeps
`backoff * attempt` after every non-final attempt, and ends in an error. -/
theorem retryGo_allFail (maxRetries backoff : ℕ)
    (results : ℕ → Except String Unit)
    (hfail : ∀ n, ∃ e, results n = .error e) :
    ∀ fuel attemptsMade, attemptsMade + fuel = maxRetries → 0 < fuel →
      (retryGo maxRetries backoff results fuel attemptsMade).2.1 =
        maxRetries ∧
      (retryGo maxRetries backoff results fuel attemptsMade).2.2 =
        (List.range' (attemptsMade + 1) (fuel - 1)).map
          (fun a => backoff * a) ∧
      ∃ e, (retryGo maxRetries backoff results fuel attemptsMade).1 =
        .error e := by
  intro fuel
  induction fuel with
  | zero =>
    intro attemptsMade _ hpos
    omega
  | succ f ih =>
    intro attemptsMade hsum _
    obtain ⟨e, he⟩ := hfail (attemptsMade + 1)
    by_cases hlt : attemptsMade + 1 < maxRetries
    · have hf : 0 < f := by omega
      have hrec := ih (attemptsMade + 1) (by omega) hf
      simp only [retryGo, he, if_pos hlt]
      refine ⟨hrec.1, ?_, hrec.2.2⟩
      rw [hrec.2.1]
      simp only [Nat.add_sub_cancel]
      conv_rhs => rw [show f = (f - 1) + 1 from by omega]
      rw [List.range'_succ, List.map_cons]
    · have hmax : attemptsMade + 1 = maxRetries := by omega
      have hfz : f = 0 := by omega
      simp only [retryGo, he, if_neg hlt, hfz]
      exact ⟨hmax, by simp, e, rfl⟩

/-- Claim C8, confirmed: A wallet whose sync always fails is attempted exactly
`max_retries` times by `sync_wallet_with_retry` (the constructor clamps
`max_retries ≥ 1`), sleeping `retry_backoff * attempt_number` between
consecutive attempts (linear back-off: `backoff*1, …,
backoff*(max_retries-1)`); the final result is an error, and in
`sync_all_wallets` that wallet is recorded with status `error` while every
other wallet of the sweep is still synced and recorded on its own merits. -/
theorem retry_exhaustion (maxRetries backoff : ℕ)
    (wallets1 wallets2 : List Wallet) (w : Wallet)
    (attemptOutcome : Wallet → ℕ → Except String Unit)
    (h1 : 1 ≤ maxRetries)
    (hfail : ∀ n, ∃ e, attemptOutcome w n = .error e) :
    (syncWalletWithRetry maxRetries backoff (attemptOutcome w)).2.1 =
      maxRetries ∧
    (syncWalletWithRetry maxRetries backoff (attemptOutcome w)).2.2 =
      (List.range' 1 (maxRetries - 1)).map (fun a => backoff * a) ∧
    (∃ e, (syncWalletWithRetry maxRetries backoff (attemptOutcome w)).1 =
      .error e) ∧
    syncAllWallets maxRetries backoff (wallets1 ++ w :: wallets2)
        attemptOutcome =
      syncAllWallets maxRetries backoff wallets1 attemptOutcome ++
        (w.id, "error") :: syncAllWallets maxRetries backoff wallets2
          attemptOutcome := by
  have hmax : max maxRetries 1 = maxRetries := max_eq_left h1
  have key := retryGo_allFail maxRetries backoff (attemptOutcome w) hfail
    maxRetries 0 (by omega) (by omega)
  have hunfold : syncWalletWithRetry maxRetries backoff (attemptOutcome w) =
      retryGo maxRetries backoff (attemptOutcome w) maxRetries 0 := by
    rw [syncWalletWithRetry, hmax]
  refine ⟨?_, ?_, ?_, ?_⟩
  · rw [hunfold]
    exact key.1
  · rw [hunfold, key.2.1]
  · rw [hunfold]
    exact key.2.2
  · obtain ⟨e, he⟩ := key.2.2
    simp only [syncAllWallets, List.map_append, List.map_cons]
    rw [hunfold, he]
    rfl

/-- Claim C8, witness: Retries clamped at 2, back-off 7: the always-failing
wallet 5 is attempted twice with one sleep of 7, recorded `error`, and its
neighbours 4 and 6 are still recorded `ok`. -/
theorem retry_exhaustion_witness :
    (syncWalletWithRetry 2 7 (fun _ => .error "boom")).2.1 = 2 ∧
    (syncWalletWithRetry 2 7 (fun _ => .error "boom")).2.2 =
      (List.range' 1 1).map (fun a => 7 * a) ∧
    (∃ e, (syncWalletWithRetry 2 7 (fun _ => .error "boom")).1 =
      .error e) ∧
    syncAllWallets 2 7 ([⟨4, "b", 1⟩] ++ ⟨5, "a", 1⟩ :: [⟨6, "c", 1⟩])
        (fun wallet _ => if wallet.id = 5 then .error "boom" else .ok ()) =
      syncAllWallets 2 7 [⟨4, "b", 1⟩]
          (fun wallet _ => if wallet.id = 5 then .error "boom" else .ok ()) ++
        (5, "error") :: syncAllWallets 2 7 [⟨6, "c", 1⟩]
          (fun wallet _ => if wallet.id = 5 then .error "boom" else .ok ()) :=
  retry_exhaustion 2 7 [⟨4, "b", 1⟩] [⟨6, "c", 1⟩] ⟨5, "a", 1⟩
    (fun wallet _ => if wallet.id = 5 then .error "boom" else .ok ())
    (by omega) (fun n => ⟨"boom", rfl⟩)



/-- Claim C7, counterexample: The cursor upsert is a plain overwrite, so an
invocation that observes `latest_block = 90` while the persisted cursor
stands at 100 rewinds the cursor from 100 to 90 — `last_tx_block` decreases
across repeated invocations, contrary to the claim. -/
theorem syncTransactions_cursor_rewind_counterexample :
    lastTxBlock storeC7 9 = some 100 ∧
    lastTxBlock (syncTransactions cfgC2 wC2 envC7 storeC7) wC2.id =
      some 90 ∧
    ¬ (100 : ℤ) ≤ 90 :=
  ⟨rfl, rfl, by decide⟩

/-- Claim C7, amended: Every invocation of the transaction indexer that
completes leaves the cursor equal to the observed `latest_block` — on every
path: `start_block > latest_block`, no tokens configured for the chain, no
logs found, and the full batch insert.  Consequently the cursor never
decreases *provided* each invocation observes a `latest_block` at least the
current cursor value (the chain tip never behind the cursor); an invocation
observing a smaller `latest_block` overwrites — and can rewind — the
cursor. -/
theorem syncTransactions_cursor_spec (cfg : SyncConfig) (wallet : Wallet)
    (env : ChainEnv) (store : Store) :
    lastTxBlock (syncTransactions cfg wallet env store) wallet.id =
      some ((env.latestBlock : ℕ) : ℤ) ∧
    (∀ c : ℤ, lastTxBlock store wallet.id = some c →
      c ≤ (env.latestBlock : ℤ) →
      ∀ c2 : ℤ, lastTxBlock (syncTransactions cfg wallet env store)
          wallet.id = some c2 → c ≤ c2) ∧
    (∀ env2 : ChainEnv, env.latestBlock ≤ env2.latestBlock →
      ∀ c2 : ℤ, lastTxBlock (syncTransactions cfg wallet env2
          (syncTransactions cfg wallet env store)) wallet.id = some c2 →
        ((env.latestBlock : ℕ) : ℤ) ≤ c2) := by
  have main : ∀ (env' : ChainEnv) (st : Store),
      lastTxBlock (syncTransactions cfg wallet env' st) wallet.id =
        some ((env'.latestBlock : ℕ) : ℤ) := by
    intro env' st
    simp only [syncTransactions]
    split
    · exact lastTxBlock_updateTxCursor st wallet.id _
    · split
      · exact lastTxBlock_updateTxCursor st wallet.id _
      · split
        · exact lastTxBlock_updateTxCursor st wallet.id _
        · exact lastTxBlock_updateTxCursor _ wallet.id _
  refine ⟨main env store, ?_, ?_⟩
  · intro c _ hle c2 hc2
    rw [main env store] at hc2
    cases hc2
    exact hle
  · intro env2 hle c2 hc2
    rw [main env2 (syncTransactions cfg wallet env store)] at hc2
    cases hc2
    exact_mod_cast hle

/-- Claim C7, witness: A run whose observed tip (block 300) is ahead of the
cursor (block 100) advances the cursor to 300 and does not decrease it. -/
theorem syncTransactions_cursor_spec_witness :
    lastTxBlock (syncTransactions cfgC2 wC2
        ⟨300, 0, fun _ => .error (), [], [], fun _ => 0, []⟩ storeC7)
      wC2.id = some ((300 : ℕ) : ℤ) ∧
    (100 : ℤ) ≤ 300 :=
  ⟨(syncTransactions_cursor_spec cfgC2 wC2
      ⟨300, 0, fun _ => .error (), [], [], fun _ => 0, []⟩ storeC7).1,
    (syncTransactions_cursor_spec cfgC2 wC2
      ⟨300, 0, fun _ => .error (), [], [], fun _ => 0, []⟩ storeC7).2.1
      100 rfl (by decide) 300
      (syncTransactions_cursor_spec cfgC2 wC2
        ⟨300, 0, fun _ => .error (), [], [], fun _ => 0, []⟩ storeC7).1⟩

/-- Claim C2, witness: -/
theorem startBlockOf_cases_witness :
    startBlockOf none 1000 = 1001 ∧
    startBlockOf (some 20) 1000 = 21 ∧
    startBlockOf (some 0) 1000 = 500 ∧
    syncTransactions cfgC2 wC2 envC2 emptyStore =
      updateTxCursor emptyStore wC2.id ((envC2.latestBlock : ℕ) : ℤ) :=
  ⟨(startBlockOf_cases 1000).1 (by decide),
    (startBlockOf_cases 1000).2.2.1 20 (by decide),
    (startBlockOf_cases 1000).2.2.2.1 0 (by decide),
    (startBlockOf_cases 1000).2.2.2.2 cfgC2 wC2 envC2 emptyStore rfl
      (by decide)⟩

/-- After the write pipeline of a non-skipped sync — snapshot insert, daily
upsert, day-cursor update, transaction indexing — the wallet's snapshot count
has grown by exactly one. -/
theorem countSnapshots_pipeline (cfg : SyncConfig) (wallet : Wallet)
    (env : ChainEnv) (store : Store) (snap : PortfolioSnapshot) (d : ℤ)
    (tot : ℚ) (h : snap.walletId = wallet.id) :
    countSnapshots (syncTransactions cfg wallet env
      (updateDayCursor (upsertDaily (insertSnapshot store snap) wallet.id d
        tot) wallet.id d)) wallet.id = countSnapshots store wallet.id + 1 := by
  rw [countSnapshots, countSnapshots, snapshots_syncTransactions,
    snapshots_updateDayCursor, snapshots_upsertDaily, insertSnapshot]
  rw [List.filter_cons_of_pos]
  · rfl
  · simp [h]

/-- After the write pipeline of a non-skipped sync, the wallet's latest
snapshot is the snapshot just inserted. -/
theorem latestByWallet_pipeline (cfg : SyncConfig) (wallet : Wallet)
    (env : ChainEnv) (store : Store) (snap : PortfolioSnapshot) (d : ℤ)
    (tot : ℚ) (h : snap.walletId = wallet.id) :
    latestByWallet (syncTransactions cfg wallet env
      (updateDayCursor (upsertDaily (insertSnapshot store snap) wallet.id d
        tot) wallet.id d)) wallet.id = some snap := by
  rw [latestByWallet, snapshots_syncTransactions, snapshots_updateDayCursor,
    snapshots_upsertDaily, insertSnapshot]
  exact List.find?_cons_of_pos _ (by simp [h])

/-- Claim C9, confirmed: When the wallet's latest persisted snapshot is younger
than `snapshot_min_interval`, `sync_wallet` returns success without changing
any persisted state (the guard runs before any write).  Consequently, when a
sync that did run persists its snapshot (timestamped at its own `now`), a
second sync within `snapshot_min_interval` is a no-op, so two calls within
the interval produce exactly one new persisted snapshot. -/
theorem syncWallet_freshness_guard (cfg : SyncConfig) (wallet : Wallet)
    (env env2 : ChainEnv) (now now2 : ℤ) (store : Store) :
    (∀ s, latestByWallet store wallet.id = some s →
      now - s.timestamp < cfg.snapshotMinInterval →
      syncWallet cfg wallet env now store = .ok store) ∧
    (freshSkip cfg wallet now store = false →
      ∀ st, syncWallet cfg wallet env now store = .ok st →
        countSnapshots st wallet.id = countSnapshots store wallet.id + 1 ∧
        (now2 - now < cfg.snapshotMinInterval →
          syncWallet cfg wallet env2 now2 st = .ok st)) := by
  have guard : ∀ (env' : ChainEnv) (t : ℤ) (st : Store)
      (s : PortfolioSnapshot), latestByWallet st wallet.id = some s →
      t - s.timestamp < cfg.snapshotMinInterval →
      syncWallet cfg wallet env' t st = .ok st := by
    intro env' t st s hs hlt
    have hskip : freshSkip cfg wallet t st = true := by
      simp only [freshSkip, hs]
      exact decide_eq_true hlt
    simp [syncWallet, hskip]
  refine ⟨fun s hs hlt => guard env now store s hs hlt, ?_⟩
  intro hskip st hok
  rcases horacle : cfg.oracle "ETH" wallet.chainId with e | price
  · unfold syncWallet at hok
    rw [if_neg (by simp [hskip]), horacle] at hok
    cases hok
  · unfold syncWallet at hok
    rw [if_neg (by simp [hskip]), horacle] at hok
    simp only [] at hok
    injection hok with h
    subst h
    constructor
    · exact countSnapshots_pipeline cfg wallet env store _ _ _ rfl
    · intro hlt2
      apply guard env2 now2 _ _
        (latestByWallet_pipeline cfg wallet env store _ _ _ rfl)
      simpa using hlt2

/-- Claim C9, witness: A wallet whose latest snapshot is 20 seconds old under a
60-second minimum interval: the sync is a no-op success leaving the store
unchanged. -/
theorem syncWallet_freshness_guard_witness :
    syncWallet ⟨[], oracleDefault, 60, false⟩ ⟨3, "0xw", 1⟩ envC7 120
      { emptyStore with snapshots := [⟨3, [], 0, 100⟩] } =
      .ok { emptyStore with snapshots := [⟨3, [], 0, 100⟩] } :=
  (syncWallet_freshness_guard ⟨[], oracleDefault, 60, false⟩ ⟨3, "0xw", 1⟩
    envC7 envC7 120 0 { emptyStore with snapshots := [⟨3, [], 0, 100⟩] }).1
    ⟨3, [], 0, 100⟩ rfl (by decide)




/-- Claim C1, code bug: On chain 56 the native position is labelled `BNB` (the
source's own comment says BSC's native coin is BNB, and the static oracle
seeds a BNB price of 600), yet its USD value is computed from
`price_usd("ETH", 56)`: a 2-BNB balance is valued at 6000 = 2 × 3000 (the ETH
price) instead of 1200 = 2 × 600 (the BNB price the claim — and the code's
own labelling — require). -/
theorem syncWallet_native_priced_as_eth_on_bsc :
    (syncWallet cfgC1 walletC1 envC1 1000 emptyStore).map
      (fun st => latestByWallet st 1) =
      .ok (some ⟨1, [⟨"BNB", 2, 6000⟩], 6000, 1000⟩) ∧
    oracleDefault "ETH" 56 = .ok 3000 ∧
    oracleDefault "BNB" 56 = .ok 600 ∧
    (2 : ℚ) * 600 ≠ 6000 := by
  refine ⟨?_, rfl, rfl, by norm_num⟩
  have h1 : oracleDefault "ETH" 56 = .ok 3000 := rfl
  norm_num [syncWallet, cfgC1, walletC1, envC1, freshSkip, latestByWallet,
    emptyStore, h1, tokenPositions, tokenPosition, dayOf, insertSnapshot,
    upsertDaily, updateDayCursor, syncTransactions, startBlockOf,
    lastTxBlock, updateTxCursor, insertTransactions, Except.map]





/-- Claim C3, counterexample: The FOO token's valuation fails with all price
layers exhausted (`oracleC3 "FOO" = error`), yet `sync_wallet` *succeeds*,
persisting the FOO position with `usd_value = 0` — the token-valuation
failure does not propagate, contrary to the claim that any valuation failure
fails the wallet's sync attempt. -/
theorem syncWallet_token_valuation_swallowed_counterexample :
    oracleC3 "FOO" 1 = .error "no price" ∧
    (syncWallet cfgC3 walletC3 envC3 1000 emptyStore).map
      (fun st => latestByWallet st 2) =
      .ok (some ⟨2, [⟨"FOO", 5, 0⟩], 0, 1000⟩) := by
  refine ⟨rfl, ?_⟩
  have h1 : oracleC3 "ETH" 1 = .ok 3000 := rfl
  have h2 : oracleC3 "FOO" 1 = .error "no price" := rfl
  norm_num [syncWallet, cfgC3, walletC3, envC3, freshSkip, latestByWallet,
    emptyStore, h1, h2, tokenPositions, tokenPosition, List.filterMap_cons,
    dayOf, insertSnapshot, upsertDaily, updateDayCursor, syncTransactions,
    startBlockOf, lastTxBlock, updateTxCursor, insertTransactions,
    Except.map]

/-- Claim C3, amended: Only a *native* valuation failure propagates out of
`sync_wallet` and fails the wallet's sync attempt (to be retried by the
orchestrator).  A *token* valuation failure is tolerated: the price degrades
to `0` and the position is kept with `usd_value = 0`; the per-token
balance-query failure skips the token; and once the native price lookup
succeeds, the sync attempt succeeds whatever the token-price outcomes. -/
theorem syncWallet_valuation_error_policy (cfg : SyncConfig)
    (wallet : Wallet) (env : ChainEnv) (now : ℤ) (store : Store) :
    (∀ e, freshSkip cfg wallet now store = false →
      cfg.oracle "ETH" wallet.chainId = .error e →
      syncWallet cfg wallet env now store = .error e) ∧
    (∀ p, cfg.oracle "ETH" wallet.chainId = .ok p →
      ∃ st, syncWallet cfg wallet env now store = .ok st) ∧
    (∀ token raw,
      token ∈ cfg.tokens.filter (fun t => t.chainId = wallet.chainId) →
      env.erc20BalanceRaw token.address = .ok raw →
      (raw : ℚ) / 10 ^ token.decimals ≠ 0 →
      (∃ e2, cfg.oracle token.symbol wallet.chainId = .error e2) →
      (⟨if wallet.chainId = 56 ∧ token.symbol = "ETH" then "WETH (BSC)"
          else token.symbol,
        (raw : ℚ) / 10 ^ token.decimals, 0⟩ : Position) ∈
        tokenPositions cfg wallet env) ∧
    (∀ token, env.erc20BalanceRaw token.address = .error () →
      tokenPosition cfg wallet env token = none) := by
  refine ⟨?_, ?_, ?_, ?_⟩
  · intro e hskip he
    unfold syncWallet
    rw [if_neg (by simp [hskip]), he]
  · intro p hp
    by_cases hskip : freshSkip cfg wallet now store = true
    · exact ⟨store, by simp [syncWallet, hskip]⟩
    · unfold syncWallet
      rw [if_neg hskip, hp]
      exact ⟨_, rfl⟩
  · intro token raw hmem hbal hamt hfail
    obtain ⟨e2, he2⟩ := hfail
    rw [tokenPositions, List.mem_filterMap]
    refine ⟨token, hmem, ?_⟩
    unfold tokenPosition
    rw [hbal]
    simp only [he2]
    rw [if_neg hamt]
    simp [mul_zero]
  · intro token hbal
    unfold tokenPosition
    rw [hbal]

/-- Claim C3, witness: A native price failure fails the sync; the FOO token's
valuation failure instead leaves a zero-valued FOO position. -/
theorem syncWallet_valuation_error_policy_witness :
    syncWallet ⟨[], (fun _ _ => .error "down"), 60, false⟩ ⟨4, "0xw", 1⟩
      envC3 0 emptyStore = .error "down" ∧
    (⟨"FOO", 5, 0⟩ : Position) ∈ tokenPositions cfgC3 walletC3 envC3 := by
  constructor
  · exact (syncWallet_valuation_error_policy
      ⟨[], (fun _ _ => .error "down"), 60, false⟩ ⟨4, "0xw", 1⟩ envC3 0
      emptyStore).1 "down" rfl rfl
  · have h := (syncWallet_valuation_error_policy cfgC3 walletC3 envC3 0
      emptyStore).2.2.1 ⟨"FOO", "0xfoo", 0, 1⟩ 5 (by decide) rfl
      (by norm_num) ⟨"no price", rfl⟩
    simpa using h
